import Mathlib

/-!
Verification of the hyperparameter search-space construction and sampling
subsystem (grid and random strategies) and of the text-feature
postprocessing code of this repository.

The repository excerpt contains `ludwig/features/text_feature.py` and the
test file `tests/ludwig/utils/test_hyperopt_utils.py`.  The module
`ludwig/utils/hyperopt_utils.py` itself (with `GridStrategy` and
`RandomStrategy`) is not part of the excerpt, so its definitions below are
modelled from the specification document, constrained by the expected
values recorded in the repository's test fixtures (`HYPEROPT_PARAMS`,
`test_grid_strategy`, `test_random_strategy`).  Python floats are embedded
as exact rationals `ℚ`; the log-space grid (numpy `logspace`/`geomspace`)
is represented exactly through the common ratio of the geometric
progression, which exists in `ℚ` precisely when the ratio
`(high / low) ^ (1 / (steps - 1))` is rational — this covers every fixture
in the repository's tests.
-/

namespace Hyperopt

/-- A value drawn from a hyperparameter domain: float (embedded as `ℚ`),
int, or categorical string. -/
inductive HValue where
  | float (q : ℚ)
  | int (n : ℤ)
  | cat (s : String)
deriving DecidableEq

/-- Numeric scale of a float parameter. -/
inductive Scale where
  | linear
  | log
deriving DecidableEq

/-- A validated parameter specification (the normal form produced by the
ParameterSpec parser). -/
inductive ParamSpec where
  | float (low high : ℚ) (steps : Option ℕ) (scale : Scale)
  | int (low high : ℤ) (steps : Option ℕ)
  | category (values : List String)
deriving DecidableEq

/-- Modelled from the spec: the raw per-parameter dictionary handed to a
strategy constructor, before validation.  Absent dictionary keys are
`none`. -/
structure RawParamSpec where
  type : Option String := none
  low : Option ℚ := none
  high : Option ℚ := none
  steps : Option ℕ := none
  scale : Option String := none
  values : Option (List String) := none
deriving DecidableEq

/-- Errors of the hyperopt subsystem.  `invalidParameterSpec` is raised
eagerly at strategy construction, `exhausted` by `sample()` past the end.
`notRepresentable` is a model artifact: a log-space grid whose common
ratio is irrational has no exact representation in `ℚ`; no claim and no
repository fixture reaches it. -/
inductive HError where
  | invalidParameterSpec (msg : String)
  | exhausted
  | notRepresentable
deriving DecidableEq

/-- Modelled from the spec: parse the `scale` entry of a float parameter;
absent means linear. -/
def parseScale : Option String → Except String Scale
  | none => .ok .linear
  | some s =>
    if s = "linear" then .ok .linear
    else if s = "log" then .ok .log
    else .error "unrecognized scale"

/-- Modelled from the spec: validate a raw float parameter
(low/high present, bounds not inverted, positive lower bound for log
scale, positive step count when present). -/
def parseFloatSpec (r : RawParamSpec) : Except String ParamSpec :=
  match r.low, r.high with
  | some lo, some hi =>
    match parseScale r.scale with
    | .error msg => .error msg
    | .ok sc =>
      if hi < lo then .error "inverted bounds"
      else if sc = Scale.log ∧ lo ≤ 0 then
        .error "log scale requires a positive lower bound"
      else if r.steps = some 0 then .error "steps must be positive"
      else .ok (ParamSpec.float lo hi r.steps sc)
  | _, _ => .error "float parameter requires low and high"

/-- Modelled from the spec: validate a raw int parameter. -/
def parseIntSpec (r : RawParamSpec) : Except String ParamSpec :=
  match r.low, r.high with
  | some lo, some hi =>
    if lo.den ≠ 1 ∨ hi.den ≠ 1 then .error "int bounds must be integers"
    else if hi < lo then .error "inverted bounds"
    else if r.steps = some 0 then .error "steps must be positive"
    else .ok (ParamSpec.int lo.num hi.num r.steps)
  | _, _ => .error "int parameter requires low and high"

/-- Modelled from the spec: validate a raw category parameter
(non-empty `values` list required). -/
def parseCategorySpec (r : RawParamSpec) : Except String ParamSpec :=
  match r.values with
  | none => .error "category parameter requires values"
  | some [] => .error "category values must be non-empty"
  | some vs => .ok (ParamSpec.category vs)

/-- Modelled from the spec: the ParameterSpec parser.  All validation of a
raw spec happens here, eagerly, before any sampling; every failure is a
descriptive `InvalidParameterSpecError` message. -/
def parseParamSpec (r : RawParamSpec) : Except String ParamSpec :=
  match r.type with
  | none => .error "missing type"
  | some t =>
    if t = "float" then parseFloatSpec r
    else if t = "int" then parseIntSpec r
    else if t = "category" then parseCategorySpec r
    else .error "unrecognized type"

/-- Modelled from the spec: numpy-style `linspace`: `steps` evenly spaced
values from `low` to `high` inclusive. -/
def linspace (low high : ℚ) (steps : ℕ) : List ℚ :=
  if steps = 1 then [low]
  else (List.range steps).map (fun k : ℕ => low + (k : ℚ) * (high - low) / ((steps : ℚ) - 1))

/-- The exact n-th root of a natural number, when it exists. -/
def natExactRoot (a n : ℕ) : Option ℕ :=
  (List.range (a + 1)).find? (fun r => r ^ n == a)

/-- The exact n-th root of a positive rational, when it exists. -/
def qExactRoot (q : ℚ) (n : ℕ) : Option ℚ :=
  if 0 < q ∧ 0 < n then
    match natExactRoot q.num.toNat n, natExactRoot q.den n with
    | some a, some b => some ((a : ℚ) / (b : ℚ))
    | _, _ => none
  else none

/-- Modelled from the spec: `steps` values evenly spaced in log-space
between `low` and `high` inclusive (numpy `logspace`/`geomspace`): the
geometric progression `low * r ^ k` whose common ratio `r` satisfies
`r ^ (steps - 1) = high / low`.  Returns `none` when that ratio is
irrational (model artifact, see `HError.notRepresentable`). -/
def logGridFunction (low high : ℚ) (steps : ℕ) : Option (List ℚ) :=
  if steps = 0 then some []
  else if steps = 1 then some [low]
  else
    (qExactRoot (high / low) (steps - 1)).map
      (fun r => (List.range steps).map (fun k => low * r ^ k))

/-- Modelled from the spec: the float grid function: linear scale is
`linspace`, log scale is `logGridFunction`; default step count when the
`steps` key is absent is 2 (the repository's test fixtures pin this
default: an int spec with `low=0, high=4` and no `steps` is expected to
produce `[0, 4]`, and int reuses the float spacing logic). -/
def floatGridFunction (low high : ℚ) (steps : Option ℕ) (scale : Scale) : Option (List ℚ) :=
  match scale with
  | .linear => some (linspace low high (steps.getD 2))
  | .log => logGridFunction low high (steps.getD 2)

/-- Collapse adjacent duplicates of a list (on a sorted list this
collapses all duplicates while preserving ascending order). -/
def collapseDuplicates : List ℤ → List ℤ
  | [] => []
  | [x] => [x]
  | x :: y :: xs =>
    if x = y then collapseDuplicates (y :: xs)
    else x :: collapseDuplicates (y :: xs)

/-- Modelled from the spec: the int grid function: same spacing logic as
the linear float grid, then cast to integer (floor), duplicates collapsed
while preserving ascending order; default step count when absent is 2
(pinned by the repository's test fixture `[0, 4]` for `low=0, high=4`,
`expected_len_grids = 24 = 4 * 2 * 3`). -/
def intGridFunction (low high : ℤ) (steps : Option ℕ) : List ℤ :=
  collapseDuplicates ((linspace (low : ℚ) (high : ℚ) (steps.getD 2)).map (fun q => ⌊q⌋))

/-- Modelled from the spec: expand one validated ParameterSpec into its
ordered candidate sequence (`category` keeps `values` verbatim). -/
def buildSequence : ParamSpec → Option (List HValue)
  | .float lo hi steps sc => (floatGridFunction lo hi steps sc).map (fun l => l.map HValue.float)
  | .int lo hi steps => some ((intGridFunction lo hi steps).map HValue.int)
  | .category vs => some (vs.map HValue.cat)

/-- Modelled from the spec: validate every raw parameter of the input map,
in order, eagerly at construction. -/
def parseAll : List (String × RawParamSpec) → Except String (List (String × ParamSpec))
  | [] => .ok []
  | (name, r) :: rest =>
    match parseParamSpec r with
    | .error msg => .error msg
    | .ok p =>
      match parseAll rest with
      | .error msg => .error msg
      | .ok ps => .ok ((name, p) :: ps)

/-- Modelled from the spec: build the candidate sequence of every
validated parameter, preserving the input order of the parameter map. -/
def buildAll : List (String × ParamSpec) → Option (List (String × List HValue))
  | [] => some []
  | (name, p) :: rest =>
    match buildSequence p with
    | none => none
    | some vs =>
      match buildAll rest with
      | none => none
      | some tail => some ((name, vs) :: tail)

/-- Modelled from the spec: the full Cartesian product of the
per-parameter candidate sequences, in row-major (odometer) order: the
first parameter varies slowest, the last fastest. -/
def cartesianProduct : List (String × List HValue) → List (List (String × HValue))
  | [] => [[]]
  | (name, vs) :: rest =>
    vs.flatMap (fun v => (cartesianProduct rest).map (fun tail => (name, v) :: tail))

/-- Modelled from the spec: `GridStrategy` state: the goal, the
materialized search space, the precomputed list of all combinations, and
the cursor of samples dispensed so far. -/
structure GridStrategy where
  goal : String
  search_space : List (String × List HValue)
  samples : List (List (String × HValue))
  sampled_so_far : ℕ
deriving DecidableEq

/-- Modelled from the spec: the `GridStrategy` constructor: validate every
spec eagerly, expand each into its candidate sequence, and precompute the
full Cartesian product. -/
def GridStrategy.create (goal : String) (parameters : List (String × RawParamSpec)) :
    Except HError GridStrategy :=
  match parseAll parameters with
  | .error msg => .error (.invalidParameterSpec msg)
  | .ok ps =>
    match buildAll ps with
    | none => .error .notRepresentable
    | some ss =>
      .ok { goal := goal, search_space := ss, samples := cartesianProduct ss,
            sampled_so_far := 0 }

/-- Modelled from the spec: `GridStrategy.sample()`: return the next
unconsumed combination and advance the cursor; raise `ExhaustedError`
once all combinations have been returned; never wrap around. -/
def GridStrategy.sample (g : GridStrategy) :
    Except HError (List (String × HValue) × GridStrategy) :=
  if h : g.sampled_so_far < g.samples.length then
    .ok (g.samples.get ⟨g.sampled_so_far, h⟩, { g with sampled_so_far := g.sampled_so_far + 1 })
  else
    .error .exhausted

/-- Modelled from the spec: a log-uniform draw `low * (high/low) ^ u` for
a unit draw `u`, represented exactly in `ℚ` when possible (falling back to
`low` otherwise — model artifact, unreachable by any claim below). -/
def logUniformDraw (low high u : ℚ) : ℚ :=
  match qExactRoot (high / low) u.den with
  | some r => low * r ^ u.num
  | none => low

/-- Modelled from the spec: draw one value from a validated ParameterSpec
given one unit draw `u` from the random stream: uniform in `[low, high]`
for linear floats, log-uniform for log floats, uniform integer in
`[low, high]` for ints, uniform choice among `values` for categories. -/
def drawValue (p : ParamSpec) (u : ℚ) : HValue :=
  match p with
  | .float lo hi _ .linear => .float (lo + u * (hi - lo))
  | .float lo hi _ .log => .float (logUniformDraw lo hi u)
  | .int lo hi _ => .int (lo + min ⌊u * ((hi : ℚ) - (lo : ℚ) + 1)⌋ (hi - lo))
  | .category vs => .cat (vs.getD (min (⌊u * vs.length⌋.toNat) (vs.length - 1)) "")

/-- Modelled from the spec: draw one full assignment, one unit draw per
parameter, consuming the random stream from index `k` on. -/
def drawAssignment (rng : ℕ → ℚ) : List (String × ParamSpec) → ℕ → List (String × HValue)
  | [], _ => []
  | (name, p) :: rest, k => (name, drawValue p (rng k)) :: drawAssignment rng rest (k + 1)

/-- Modelled from the spec and the repository's test: `RandomStrategy`
state: the goal, the validated parameter specs, the requested sample
count, the list of drawn samples, and the cursor of samples dispensed so
far.  The test `test_random_strategy` asserts
`len(random_strategy.samples) == num_samples` right after construction
plus a single `sample()` call, so the constructor materializes the
`samples` collection. -/
structure RandomStrategy where
  goal : String
  parameters : List (String × ParamSpec)
  num_samples : ℕ
  samples : List (List (String × HValue))
  sampled_so_far : ℕ
deriving DecidableEq

/-- Modelled from the spec and the repository's test: the `RandomStrategy`
constructor: validate every spec eagerly, store the specs and the target
count, and draw `num_samples` assignments from the random stream `rng`
(assignment `i` consumes the stream from index `i * |parameters|`). -/
def RandomStrategy.create (goal : String) (parameters : List (String × RawParamSpec))
    (num_samples : ℕ) (rng : ℕ → ℚ) : Except HError RandomStrategy :=
  match parseAll parameters with
  | .error msg => .error (.invalidParameterSpec msg)
  | .ok ps =>
    .ok { goal := goal, parameters := ps, num_samples := num_samples,
          samples := (List.range num_samples).map
            (fun i => drawAssignment rng ps (i * ps.length)),
          sampled_so_far := 0 }

/-- Modelled from the spec: `RandomStrategy.sample()`: return the next
drawn assignment and advance the counter of samples drawn so far; once
`num_samples` calls have occurred, fail with `ExhaustedError`. -/
def RandomStrategy.sample (r : RandomStrategy) :
    Except HError (List (String × HValue) × RandomStrategy) :=
  if h : r.sampled_so_far < r.samples.length then
    .ok (r.samples.get ⟨r.sampled_so_far, h⟩, { r with sampled_so_far := r.sampled_so_far + 1 })
  else
    .error .exhausted

/-- A raw ParameterSpec exhibiting one of the defects the spec's error
taxonomy lists for `InvalidParameterSpecError`: missing required field,
unrecognized type, inverted bounds, non-positive log-scale lower bound,
or empty category list. -/
def Malformed (r : RawParamSpec) : Prop :=
  (r.type = none) ∨
  (∃ t, r.type = some t ∧ t ≠ "float" ∧ t ≠ "int" ∧ t ≠ "category") ∨
  ((r.type = some "float" ∨ r.type = some "int") ∧ (r.low = none ∨ r.high = none)) ∨
  (r.type = some "category" ∧ r.values = none) ∨
  (∃ lo hi, (r.type = some "float" ∨ r.type = some "int") ∧
    r.low = some lo ∧ r.high = some hi ∧ hi < lo) ∨
  (∃ lo, r.type = some "float" ∧ r.scale = some "log" ∧ r.low = some lo ∧ lo ≤ 0) ∨
  (r.type = some "category" ∧ r.values = some [])

end Hyperopt

namespace TextFeature

/-- The unknown-token symbol imported from `ludwig.utils.strings_utils`. -/
def UNKNOWN_SYMBOL : String := "<UNK>"

/-- The padding symbol imported from `ludwig.utils.strings_utils`. -/
def PADDING_SYMBOL : String := "<PAD>"

/-- The preprocessing parameters consumed by
`TextFeatureMixin.get_feature_meta` (`ludwig/features/text_feature.py`).
Only the entries that function reads are carried. -/
structure PreprocessingParameters where
  char_sequence_length_limit : ℕ
  char_most_common : ℕ
  word_sequence_length_limit : ℕ
  word_most_common : ℕ
  lowercase : Bool
deriving DecidableEq

/-- The defaults of `TextFeatureMixin.preprocessing_defaults` for the
entries carried here. -/
def preprocessing_defaults : PreprocessingParameters :=
  { char_sequence_length_limit := 1024, char_most_common := 70,
    word_sequence_length_limit := 256, word_most_common := 20000,
    lowercase := true }

/-- The tuple returned by `create_vocabulary` for one column and one
tokenizer: the vocabulary, its inverse, the token frequencies, and the
maximum observed token-sequence length. -/
structure VocabResult where
  idx2str : List String
  str2idx : List (String × ℕ)
  str2freq : List (String × ℕ)
  max_len : ℕ
deriving DecidableEq

/-- Modelled from the spec: `create_vocabulary`
(`ludwig/utils/strings_utils.py`) is not in the excerpt.  It tokenizes
every row of the column, collects a vocabulary, and reports the maximum
observed token-sequence length; only that maximum matters to the claims,
and it is the maximum of the per-row token counts. -/
def create_vocabulary (column : List String) (tokenize : String → List String) : VocabResult :=
  let tokens := column.flatMap tokenize
  let vocab := tokens.dedup
  { idx2str := vocab
    str2idx := vocab.enum.map (fun p => (p.2, p.1))
    str2freq := vocab.map (fun s => (s, tokens.count s))
    max_len := (column.map (fun s => (tokenize s).length)).foldr max 0 }

/-- The character tokenizer (`tokenizer_type='characters'`): one token per
character. -/
def charTokenize (s : String) : List String :=
  s.data.map (fun c => String.mk [c])

/-- `TextFeatureMixin.feature_meta`: run `create_vocabulary` once with the
character tokenizer and once with the configured word tokenizer
(`ludwig/features/text_feature.py`, lines 59-97). -/
def feature_meta (column : List String) (wordTokenize : String → List String) :
    VocabResult × VocabResult :=
  (create_vocabulary column charTokenize, create_vocabulary column wordTokenize)

/-- The metadata dictionary returned by
`TextFeatureMixin.get_feature_meta`. -/
structure TextFeatureMetaDict where
  char_idx2str : List String
  char_str2idx : List (String × ℕ)
  char_str2freq : List (String × ℕ)
  char_vocab_size : ℕ
  char_max_sequence_length : ℕ
  word_idx2str : List String
  word_str2idx : List (String × ℕ)
  word_str2freq : List (String × ℕ)
  word_vocab_size : ℕ
  word_max_sequence_length : ℕ
deriving DecidableEq

/-- `TextFeatureMixin.get_feature_meta`
(`ludwig/features/text_feature.py`, lines 99-133): clamp each observed
maximum length with the configured sequence-length limit
(`char_max_len = min(limit, char_max_len)`, same for word) and assemble
the metadata dictionary. -/
def get_feature_meta (column : List String) (pp : PreprocessingParameters)
    (wordTokenize : String → List String) : TextFeatureMetaDict :=
  let tf_meta := feature_meta column wordTokenize
  let char_max_len := min pp.char_sequence_length_limit tf_meta.1.max_len
  let word_max_len := min pp.word_sequence_length_limit tf_meta.2.max_len
  { char_idx2str := tf_meta.1.idx2str
    char_str2idx := tf_meta.1.str2idx
    char_str2freq := tf_meta.1.str2freq
    char_vocab_size := tf_meta.1.idx2str.length
    char_max_sequence_length := char_max_len
    word_idx2str := tf_meta.2.idx2str
    word_str2idx := tf_meta.2.str2idx
    word_str2freq := tf_meta.2.str2freq
    word_vocab_size := tf_meta.2.idx2str.length
    word_max_sequence_length := word_max_len }

/-- The token-to-string mapping rule of
`TextOutputFeature.postprocess_predictions`
(`ludwig/features/text_feature.py`, lines 346-352 and 365-370):
`metadata[idx2str][token] if token < len(metadata[idx2str]) else
UNKNOWN_SYMBOL`. -/
def map_token (idx2str : List String) (token : ℕ) : String :=
  if h : token < idx2str.length then idx2str.get ⟨token, h⟩ else UNKNOWN_SYMBOL

/-- The `PREDICTIONS` branch of
`TextOutputFeature.postprocess_predictions` when the level's `idx2str`
vocabulary is present in the metadata: map every token of every predicted
sequence through `map_token`. -/
def postprocess_prediction_tokens (idx2str : List String) (preds : List (List ℕ)) :
    List (List String) :=
  preds.map (fun pred => pred.map (map_token idx2str))

/-- The `LAST_PREDICTIONS` branch of
`TextOutputFeature.postprocess_predictions` when the level's `idx2str`
vocabulary is present in the metadata. -/
def postprocess_last_predictions (idx2str : List String) (last_preds : List ℕ) :
    List String :=
  last_preds.map (map_token idx2str)

end TextFeature

namespace Hyperopt

theorem linspace_length (low high : ℚ) (steps : ℕ) :
    (linspace low high steps).length = steps := by
  unfold linspace
  split
  · simp [*]
  · rw [List.length_map, List.length_range]

theorem linspace_getElem (low high : ℚ) (steps k : ℕ) (hs : 2 ≤ steps) (hk : k < steps) :
    (linspace low high steps)[k]? = some (low + k * (high - low) / ((steps : ℚ) - 1)) := by
  unfold linspace
  rw [if_neg (by omega), List.getElem?_map, List.getElem?_range hk, Option.map_some']

theorem cartesianProduct_length (ss : List (String × List HValue)) :
    (cartesianProduct ss).length = (ss.map (fun p => p.2.length)).prod := by
  induction ss with
  | nil => simp [cartesianProduct]
  | cons hd tl ih =>
    obtain ⟨name, vs⟩ := hd
    rw [List.map_cons, List.prod_cons, ← ih]
    show (vs.flatMap fun v => (cartesianProduct tl).map (fun tail => (name, v) :: tail)).length
      = vs.length * (cartesianProduct tl).length
    simp only [List.length_flatMap, Function.comp_def, List.length_map, List.map_const',
      List.sum_replicate, smul_eq_mul]

theorem cartesianProduct_keys (ss : List (String × List HValue)) :
    ∀ s ∈ cartesianProduct ss, s.map Prod.fst = ss.map Prod.fst := by
  induction ss with
  | nil =>
    intro s hs
    simp [cartesianProduct] at hs
    simp [hs]
  | cons hd tl ih =>
    obtain ⟨name, vs⟩ := hd
    intro s hs
    simp only [cartesianProduct, List.mem_flatMap, List.mem_map] at hs
    obtain ⟨v, hv, tail, htail, rfl⟩ := hs
    simp [ih tail htail]

theorem parseAll_keys (params : List (String × RawParamSpec)) (ps : List (String × ParamSpec))
    (h : parseAll params = .ok ps) : ps.map Prod.fst = params.map Prod.fst := by
  induction params generalizing ps with
  | nil =>
    simp only [parseAll] at h
    cases h
    simp
  | cons hd tl ih =>
    obtain ⟨name, r⟩ := hd
    simp only [parseAll] at h
    cases hp : parseParamSpec r with
    | error msg => rw [hp] at h; cases h
    | ok p =>
      rw [hp] at h
      cases hrest : parseAll tl with
      | error msg => rw [hrest] at h; cases h
      | ok ps2 =>
        rw [hrest] at h
        cases h
        simp [ih ps2 hrest]

theorem buildAll_keys (ps : List (String × ParamSpec)) (ss : List (String × List HValue))
    (h : buildAll ps = some ss) : ss.map Prod.fst = ps.map Prod.fst := by
  induction ps generalizing ss with
  | nil =>
    simp only [buildAll] at h
    cases h
    simp
  | cons hd tl ih =>
    obtain ⟨name, p⟩ := hd
    simp only [buildAll] at h
    cases hb : buildSequence p with
    | none => rw [hb] at h; cases h
    | some vs =>
      rw [hb] at h
      cases hrest : buildAll tl with
      | none => rw [hrest] at h; cases h
      | some tail =>
        rw [hrest] at h
        cases h
        simp [ih tail hrest]

theorem parseAll_mem_ok {params : List (String × RawParamSpec)}
    {ps : List (String × ParamSpec)} (h : parseAll params = .ok ps)
    {name : String} {r : RawParamSpec} (hmem : (name, r) ∈ params) :
    ∃ p, parseParamSpec r = .ok p := by
  induction params generalizing ps with
  | nil => cases hmem
  | cons hd tl ih =>
    obtain ⟨n2, r2⟩ := hd
    simp only [parseAll] at h
    cases hp : parseParamSpec r2 with
    | error msg => rw [hp] at h; cases h
    | ok p =>
      rw [hp] at h
      cases hrest : parseAll tl with
      | error msg => rw [hrest] at h; cases h
      | ok ps2 =>
        rcases List.mem_cons.mp hmem with heq | hmem2
        · rw [Prod.mk.injEq] at heq
          obtain ⟨rfl, rfl⟩ := heq
          exact ⟨p, hp⟩
        · exact ih hrest hmem2

theorem malformed_parse_error (r : RawParamSpec) (h : Malformed r) :
    ∃ msg, parseParamSpec r = .error msg := by
  unfold Malformed at h
  obtain h | ⟨t, ht, h1, h2, h3⟩ | ⟨hty, hlh⟩ | ⟨hty, hv⟩ |
    ⟨lo, hi, hty, hlo, hhi, hlt⟩ | ⟨lo, hty, hsc, hlo, hle⟩ | ⟨hty, hv⟩ := h
  · exact ⟨"missing type", by simp [parseParamSpec, h]⟩
  · exact ⟨"unrecognized type", by simp [parseParamSpec, ht, h1, h2, h3]⟩
  · rcases hty with hty | hty
    · rcases hlh with hl | hh
      · exact ⟨"float parameter requires low and high",
          by simp [parseParamSpec, hty, parseFloatSpec, hl]⟩
      · cases hl : r.low with
        | none => exact ⟨"float parameter requires low and high",
            by simp [parseParamSpec, hty, parseFloatSpec, hl]⟩
        | some lo => exact ⟨"float parameter requires low and high",
            by simp [parseParamSpec, hty, parseFloatSpec, hl, hh]⟩
    · rcases hlh with hl | hh
      · exact ⟨"int parameter requires low and high",
          by simp [parseParamSpec, hty, parseIntSpec, hl]⟩
      · cases hl : r.low with
        | none => exact ⟨"int parameter requires low and high",
            by simp [parseParamSpec, hty, parseIntSpec, hl]⟩
        | some lo => exact ⟨"int parameter requires low and high",
            by simp [parseParamSpec, hty, parseIntSpec, hl, hh]⟩
  · exact ⟨"category parameter requires values",
      by simp [parseParamSpec, hty, parseCategorySpec, hv]⟩
  · rcases hty with hty | hty
    · cases hps : parseScale r.scale with
      | error msg =>
        exact ⟨msg, by simp [parseParamSpec, hty, parseFloatSpec, hlo, hhi, hps]⟩
      | ok sc =>
        exact ⟨"inverted bounds",
          by simp [parseParamSpec, hty, parseFloatSpec, hlo, hhi, hps, hlt]⟩
    · by_cases hden : lo.den ≠ 1 ∨ hi.den ≠ 1
      · exact ⟨"int bounds must be integers",
          by simp [parseParamSpec, hty, parseIntSpec, hlo, hhi, hden]⟩
      · exact ⟨"inverted bounds",
          by simp [parseParamSpec, hty, parseIntSpec, hlo, hhi, hden, hlt]⟩
  · cases hh : r.high with
    | none => exact ⟨"float parameter requires low and high",
        by simp [parseParamSpec, hty, parseFloatSpec, hlo, hh]⟩
    | some hi =>
      by_cases hlt : hi < lo
      · exact ⟨"inverted bounds", by
          simp [parseParamSpec, hty, parseFloatSpec, hlo, hh, hsc, parseScale, hlt]⟩
      · exact ⟨"log scale requires a positive lower bound", by
          simp [parseParamSpec, hty, parseFloatSpec, hlo, hh, hsc, parseScale, hlt, hle]⟩
  · exact ⟨"category values must be non-empty",
      by simp [parseParamSpec, hty, parseCategorySpec, hv]⟩

theorem malformed_parseAll_error {params : List (String × RawParamSpec)}
    {name : String} {r : RawParamSpec} (hmem : (name, r) ∈ params) (hmal : Malformed r) :
    ∃ msg, parseAll params = .error msg := by
  induction params with
  | nil => cases hmem
  | cons hd tl ih =>
    obtain ⟨n2, r2⟩ := hd
    rcases List.mem_cons.mp hmem with heq | hmem2
    · rw [Prod.mk.injEq] at heq
      obtain ⟨rfl, rfl⟩ := heq
      obtain ⟨msg, hmsg⟩ := malformed_parse_error r hmal
      exact ⟨msg, by simp [parseAll, hmsg]⟩
    · cases hp : parseParamSpec r2 with
      | error msg => exact ⟨msg, by simp [parseAll, hp]⟩
      | ok p =>
        obtain ⟨msg, hmsg⟩ := ih hmem2
        exact ⟨msg, by simp [parseAll, hp, hmsg]⟩

theorem drawAssignment_keys (rng : ℕ → ℚ) (ps : List (String × ParamSpec)) (k : ℕ) :
    (drawAssignment rng ps k).map Prod.fst = ps.map Prod.fst := by
  induction ps generalizing k with
  | nil => simp [drawAssignment]
  | cons hd tl ih =>
    obtain ⟨name, p⟩ := hd
    simp [drawAssignment, ih]

theorem gridStrategy_create_ok {goal : String} {params : List (String × RawParamSpec)}
    {g : GridStrategy} (h : GridStrategy.create goal params = .ok g) :
    ∃ ps, parseAll params = .ok ps ∧ buildAll ps = some g.search_space ∧
      g.samples = cartesianProduct g.search_space ∧ g.sampled_so_far = 0 ∧ g.goal = goal := by
  unfold GridStrategy.create at h
  split at h
  · simp at h
  · rename_i ps hp
    split at h
    · simp at h
    · rename_i ss hb
      cases h
      exact ⟨ps, hp, hb, rfl, rfl, rfl⟩

theorem randomStrategy_create_ok {goal : String} {params : List (String × RawParamSpec)}
    {n : ℕ} {rng : ℕ → ℚ} {r : RandomStrategy}
    (h : RandomStrategy.create goal params n rng = .ok r) :
    parseAll params = .ok r.parameters ∧ r.num_samples = n ∧
      r.samples = (List.range n).map
        (fun i => drawAssignment rng r.parameters (i * r.parameters.length)) ∧
      r.sampled_so_far = 0 ∧ r.goal = goal := by
  unfold RandomStrategy.create at h
  split at h
  · simp at h
  · rename_i ps hp
    cases h
    exact ⟨hp, rfl, rfl, rfl, rfl⟩

theorem natExactRoot_spec {a n r : ℕ} (h : natExactRoot a n = some r) : r ^ n = a := by
  unfold natExactRoot at h
  have := List.find?_some h
  simpa using this

theorem qExactRoot_spec {q : ℚ} {n : ℕ} {r : ℚ} (h : qExactRoot q n = some r) :
    0 < r ∧ r ^ n = q := by
  unfold qExactRoot at h
  split at h
  · rename_i hq
    obtain ⟨hq0, hn0⟩ := hq
    split at h
    · rename_i a b ha hb
      cases h
      have ha' : a ^ n = q.num.toNat := natExactRoot_spec ha
      have hb' : b ^ n = q.den := natExactRoot_spec hb
      have hnum : 0 < q.num := Rat.num_pos.mpr hq0
      have hbpos : 0 < b := by
        rcases Nat.eq_zero_or_pos b with h0 | h0
        · exfalso
          rw [h0, Nat.zero_pow hn0] at hb'
          exact absurd hb'.symm (Nat.pos_iff_ne_zero.mp q.pos)
        · exact h0
      have hapos : 0 < a := by
        rcases Nat.eq_zero_or_pos a with h0 | h0
        · exfalso
          rw [h0, Nat.zero_pow hn0] at ha'
          omega
        · exact h0
      constructor
      · have h1 : (0 : ℚ) < (a : ℚ) := by exact_mod_cast hapos
        have h2 : (0 : ℚ) < (b : ℚ) := by exact_mod_cast hbpos
        exact div_pos h1 h2
      · have hd : ((q.num.toNat : ℕ) : ℚ) = (q.num : ℚ) := by
          have := Int.toNat_of_nonneg (le_of_lt hnum)
          exact_mod_cast congrArg (fun z : ℤ => (z : ℚ)) this
        rw [div_pow]
        rw [show ((a : ℚ)) ^ n = ((a ^ n : ℕ) : ℚ) by push_cast; ring]
        rw [show ((b : ℚ)) ^ n = ((b ^ n : ℕ) : ℚ) by push_cast; ring]
        rw [ha', hb', hd, Rat.num_div_den]
    · cases h
  · cases h

end Hyperopt

namespace Hyperopt

/-- C1 (counterexample): the claim says an int ParameterSpec with no
`steps` field enumerates every integer from low to high (default steps
`high - low + 1`), so for `low=0, high=4` the sequence would be
`[0,1,2,3,4]`.  The repository's test fixture instead expects `[0, 4]`
(`expected_search_space` and `expected_len_grids = 24 = 4*2*3` in
`HYPEROPT_PARAMS["test_1"]`), and the model built from that fixture
produces `[0, 4]`, which does not contain `1`. -/
theorem C1_counterexample :
    buildSequence (ParamSpec.int 0 4 none) = some [HValue.int 0, HValue.int 4] ∧
    ¬ (∀ n : ℤ, 0 ≤ n → n ≤ 4 →
        HValue.int n ∈ (buildSequence (ParamSpec.int 0 4 none)).getD []) := by
  have hseq : buildSequence (ParamSpec.int 0 4 none) = some [HValue.int 0, HValue.int 4] := by
    simp [buildSequence, intGridFunction, linspace, List.range_succ, collapseDuplicates]
    norm_num
  refine ⟨hseq, ?_⟩
  intro hall
  have h1 := hall 1 (by norm_num) (by norm_num)
  rw [hseq] at h1
  simp [HValue.int.injEq] at h1

/-- C1 (amended): for every int ParameterSpec with no `steps` field the
default steps count is 2, so the candidate sequence is `[low, high]`
(collapsed to `[low]` when the bounds coincide); it contains every
integer from low to high only when `high ≤ low + 1`. -/
theorem C1_int_default_two_endpoints (lo hi : ℤ) (h : lo ≤ hi) :
    buildSequence (ParamSpec.int lo hi none) =
      some (if lo = hi then [HValue.int lo] else [HValue.int lo, HValue.int hi]) := by
  have h2 : linspace (lo : ℚ) (hi : ℚ) 2 = [(lo : ℚ), (hi : ℚ)] := by
    unfold linspace
    rw [if_neg (by norm_num), show List.range 2 = [0, 1] from rfl]
    simp only [List.map_cons, List.map_nil, Nat.cast_zero, Nat.cast_one, Nat.cast_ofNat]
    norm_num
  show some ((intGridFunction lo hi none).map HValue.int) = _
  unfold intGridFunction
  rw [show (none : Option ℕ).getD 2 = 2 from rfl, h2]
  simp only [List.map_cons, List.map_nil, Int.floor_intCast]
  by_cases heq : lo = hi
  · subst heq
    simp [collapseDuplicates]
  · rw [if_neg heq]
    simp [collapseDuplicates, heq]

/-- Witness for `C1_int_default_two_endpoints` at `low=2, high=6`. -/
theorem C1_int_default_two_endpoints_witness :
    buildSequence (ParamSpec.int 2 6 none) =
      some (if (2 : ℤ) = 6 then [HValue.int 2] else [HValue.int 2, HValue.int 6]) :=
  C1_int_default_two_endpoints 2 6 (by norm_num)

/-- C2: after a successful `GridStrategy` construction the number of
precomputed combinations equals the product of the lengths of the
per-parameter candidate sequences. -/
theorem C2_grid_samples_length_eq_product (goal : String)
    (params : List (String × RawParamSpec)) (g : GridStrategy)
    (h : GridStrategy.create goal params = .ok g) :
    g.samples.length = (g.search_space.map (fun p => p.2.length)).prod := by
  obtain ⟨ps, _, _, hsamp, _, _⟩ := gridStrategy_create_ok h
  rw [hsamp, cartesianProduct_length]

/-- Witness for `C2_grid_samples_length_eq_product` on a two-parameter
map (two category parameters of sizes 3 and 2, giving 6 combinations). -/
theorem C2_grid_samples_length_eq_product_witness :
    (GridStrategy.mk "minimize"
      [("utterance.cell_type", [HValue.cat "rnn", HValue.cat "gru", HValue.cat "lstm"]),
       ("pad", [HValue.cat "left", HValue.cat "right"])]
      [[("utterance.cell_type", HValue.cat "rnn"), ("pad", HValue.cat "left")],
       [("utterance.cell_type", HValue.cat "rnn"), ("pad", HValue.cat "right")],
       [("utterance.cell_type", HValue.cat "gru"), ("pad", HValue.cat "left")],
       [("utterance.cell_type", HValue.cat "gru"), ("pad", HValue.cat "right")],
       [("utterance.cell_type", HValue.cat "lstm"), ("pad", HValue.cat "left")],
       [("utterance.cell_type", HValue.cat "lstm"), ("pad", HValue.cat "right")]]
      0).samples.length =
    ((GridStrategy.mk "minimize"
      [("utterance.cell_type", [HValue.cat "rnn", HValue.cat "gru", HValue.cat "lstm"]),
       ("pad", [HValue.cat "left", HValue.cat "right"])]
      [[("utterance.cell_type", HValue.cat "rnn"), ("pad", HValue.cat "left")],
       [("utterance.cell_type", HValue.cat "rnn"), ("pad", HValue.cat "right")],
       [("utterance.cell_type", HValue.cat "gru"), ("pad", HValue.cat "left")],
       [("utterance.cell_type", HValue.cat "gru"), ("pad", HValue.cat "right")],
       [("utterance.cell_type", HValue.cat "lstm"), ("pad", HValue.cat "left")],
       [("utterance.cell_type", HValue.cat "lstm"), ("pad", HValue.cat "right")]]
      0).search_space.map (fun p => p.2.length)).prod :=
  C2_grid_samples_length_eq_product "minimize"
    [("utterance.cell_type", { type := some "category", values := some ["rnn", "gru", "lstm"] }),
     ("pad", { type := some "category", values := some ["left", "right"] })]
    _ (by rfl)

end Hyperopt

namespace Hyperopt

/-- C3: for both strategies, every successful `sample()` call (from any
cursor position) returns a mapping whose key sequence equals the input
parameter map's key sequence, which also equals `GridStrategy`'s
`search_space` key sequence. -/
theorem C3_sample_keys_match (goal : String) (params : List (String × RawParamSpec)) :
    (∀ g c s g', GridStrategy.create goal params = .ok g →
      GridStrategy.sample { g with sampled_so_far := c } = .ok (s, g') →
      s.map Prod.fst = params.map Prod.fst ∧
      g.search_space.map Prod.fst = params.map Prod.fst) ∧
    (∀ n rng r c s r', RandomStrategy.create goal params n rng = .ok r →
      RandomStrategy.sample { r with sampled_so_far := c } = .ok (s, r') →
      s.map Prod.fst = params.map Prod.fst) := by
  constructor
  · intro g c s g' hc hs
    obtain ⟨ps, hp, hb, hsamp, _, _⟩ := gridStrategy_create_ok hc
    have hkeys : g.search_space.map Prod.fst = params.map Prod.fst := by
      rw [buildAll_keys _ _ hb, parseAll_keys _ _ hp]
    refine ⟨?_, hkeys⟩
    unfold GridStrategy.sample at hs
    split at hs
    · rename_i hlt
      simp only [Except.ok.injEq, Prod.mk.injEq] at hs
      obtain ⟨rfl, rfl⟩ := hs
      set x := ({ g with sampled_so_far := c } : GridStrategy).samples.get ⟨c, hlt⟩ with hx
      have hmem : x ∈ cartesianProduct g.search_space := by
        rw [← hsamp]
        exact List.get_mem _ _ _
      rw [cartesianProduct_keys _ _ hmem, hkeys]
    · simp at hs
  · intro n rng r c s r' hc hs
    obtain ⟨hp, hn, hsamp, _, _⟩ := randomStrategy_create_ok hc
    unfold RandomStrategy.sample at hs
    split at hs
    · rename_i hlt
      simp only [Except.ok.injEq, Prod.mk.injEq] at hs
      obtain ⟨rfl, rfl⟩ := hs
      set x := ({ r with sampled_so_far := c } : RandomStrategy).samples.get ⟨c, hlt⟩ with hx
      have hmem : x ∈ (List.range n).map
          (fun i => drawAssignment rng r.parameters (i * r.parameters.length)) := by
        rw [← hsamp]
        exact List.get_mem _ _ _
      obtain ⟨i, hi, heq⟩ := List.mem_map.mp hmem
      rw [← heq, drawAssignment_keys, parseAll_keys _ _ hp]
    · simp at hs

/-- Witness for `C3_sample_keys_match` on a one-parameter category map,
for both the grid part and the random part. -/
theorem C3_sample_keys_match_witness :
    ([("a", HValue.cat "x")] : List (String × HValue)).map Prod.fst =
      ([("a", ({ type := some "category", values := some ["x", "y"] } : RawParamSpec))]).map
        Prod.fst ∧
    ([("a", drawValue (ParamSpec.category ["x", "y"]) 0)] : List (String × HValue)).map Prod.fst =
      ([("a", ({ type := some "category", values := some ["x", "y"] } : RawParamSpec))]).map
        Prod.fst := by
  constructor
  · exact ((C3_sample_keys_match "m"
      [("a", { type := some "category", values := some ["x", "y"] })]).1
      (GridStrategy.mk "m" [("a", [HValue.cat "x", HValue.cat "y"])]
        [[("a", HValue.cat "x")], [("a", HValue.cat "y")]] 0)
      0 [("a", HValue.cat "x")]
      (GridStrategy.mk "m" [("a", [HValue.cat "x", HValue.cat "y"])]
        [[("a", HValue.cat "x")], [("a", HValue.cat "y")]] 1)
      (by rfl) (by rfl)).1
  · exact (C3_sample_keys_match "m"
      [("a", { type := some "category", values := some ["x", "y"] })]).2
      1 (fun _ => 0)
      (RandomStrategy.mk "m" [("a", ParamSpec.category ["x", "y"])] 1
        [[("a", drawValue (ParamSpec.category ["x", "y"]) 0)]] 0)
      0 [("a", drawValue (ParamSpec.category ["x", "y"]) 0)]
      (RandomStrategy.mk "m" [("a", ParamSpec.category ["x", "y"])] 1
        [[("a", drawValue (ParamSpec.category ["x", "y"]) 0)]] 1)
      (by rfl) (by rfl)

/-- C6: for both strategies, once the available count is consumed every
further `sample()` call fails with `ExhaustedError` and the strategy never
wraps around; each successful call advances the cursor by exactly one and
leaves the precomputed samples unchanged. -/
theorem C6_exhausted_beyond_available (goal : String) (params : List (String × RawParamSpec)) :
    (∀ g c, GridStrategy.create goal params = .ok g → g.samples.length ≤ c →
      GridStrategy.sample { g with sampled_so_far := c } = .error .exhausted) ∧
    (∀ g s g', GridStrategy.sample g = .ok (s, g') →
      g'.sampled_so_far = g.sampled_so_far + 1 ∧ g'.samples = g.samples) ∧
    (∀ n rng r c, RandomStrategy.create goal params n rng = .ok r → n ≤ c →
      RandomStrategy.sample { r with sampled_so_far := c } = .error .exhausted) ∧
    (∀ r s r', RandomStrategy.sample r = .ok (s, r') →
      r'.sampled_so_far = r.sampled_so_far + 1 ∧ r'.samples = r.samples) := by
  refine ⟨?_, ?_, ?_, ?_⟩
  · intro g c hc hlen
    have hneg : ¬ (({ g with sampled_so_far := c } : GridStrategy).sampled_so_far <
        ({ g with sampled_so_far := c } : GridStrategy).samples.length) := by
      simpa using not_lt.mpr hlen
    unfold GridStrategy.sample
    rw [dif_neg hneg]
  · intro g s g' h
    unfold GridStrategy.sample at h
    split at h
    · simp only [Except.ok.injEq, Prod.mk.injEq] at h
      obtain ⟨_, rfl⟩ := h
      exact ⟨rfl, rfl⟩
    · simp at h
  · intro n rng r c hc hlen
    obtain ⟨_, _, hsamp, _, _⟩ := randomStrategy_create_ok hc
    have hlen2 : r.samples.length = n := by rw [hsamp]; simp
    have hneg : ¬ (({ r with sampled_so_far := c } : RandomStrategy).sampled_so_far <
        ({ r with sampled_so_far := c } : RandomStrategy).samples.length) := by
      simp only [not_lt]
      show r.samples.length ≤ c
      omega
    unfold RandomStrategy.sample
    rw [dif_neg hneg]
  · intro r s r' h
    unfold RandomStrategy.sample at h
    split at h
    · simp only [Except.ok.injEq, Prod.mk.injEq] at h
      obtain ⟨_, rfl⟩ := h
      exact ⟨rfl, rfl⟩
    · simp at h

/-- Witness for `C6_exhausted_beyond_available`: a two-combination grid
queried at cursor 2, a successful grid call at cursor 0, a one-sample
random strategy queried at cursor 1, and a successful random call. -/
theorem C6_exhausted_beyond_available_witness :
    GridStrategy.sample
      (GridStrategy.mk "m" [("a", [HValue.cat "x", HValue.cat "y"])]
        [[("a", HValue.cat "x")], [("a", HValue.cat "y")]] 2) = .error .exhausted ∧
    ((GridStrategy.mk "m" [("a", [HValue.cat "x", HValue.cat "y"])]
        [[("a", HValue.cat "x")], [("a", HValue.cat "y")]] 1).sampled_so_far =
      (GridStrategy.mk "m" [("a", [HValue.cat "x", HValue.cat "y"])]
        [[("a", HValue.cat "x")], [("a", HValue.cat "y")]] 0).sampled_so_far + 1) ∧
    RandomStrategy.sample
      (RandomStrategy.mk "m" [("a", ParamSpec.category ["x", "y"])] 1
        [[("a", drawValue (ParamSpec.category ["x", "y"]) 0)]] 1) = .error .exhausted := by
  have h := C6_exhausted_beyond_available "m"
    [("a", ({ type := some "category", values := some ["x", "y"] } : RawParamSpec))]
  refine ⟨?_, ?_, ?_⟩
  · exact h.1
      (GridStrategy.mk "m" [("a", [HValue.cat "x", HValue.cat "y"])]
        [[("a", HValue.cat "x")], [("a", HValue.cat "y")]] 0)
      2 (by rfl) (by norm_num)
  · exact (h.2.1
      (GridStrategy.mk "m" [("a", [HValue.cat "x", HValue.cat "y"])]
        [[("a", HValue.cat "x")], [("a", HValue.cat "y")]] 0)
      [("a", HValue.cat "x")]
      (GridStrategy.mk "m" [("a", [HValue.cat "x", HValue.cat "y"])]
        [[("a", HValue.cat "x")], [("a", HValue.cat "y")]] 1)
      (by rfl)).1
  · exact h.2.2.1 1 (fun _ => 0)
      (RandomStrategy.mk "m" [("a", ParamSpec.category ["x", "y"])] 1
        [[("a", drawValue (ParamSpec.category ["x", "y"]) 0)]] 0)
      1 (by rfl) (by norm_num)

end Hyperopt

namespace Hyperopt

/-- C7 (counterexample): the claim says the `RandomStrategy` constructor
does not precompute or materialize any collection of samples, but the
repository's test (`test_random_strategy`) asserts
`len(random_strategy.samples) == num_samples` right after construction
plus one `sample()` call: the constructor materializes `num_samples`
assignments (here 3, all nonzero-length, before any successful draws
beyond the first could have occurred). -/
theorem C7_counterexample :
    RandomStrategy.create "minimize"
      [("a", { type := some "category", values := some ["x", "y"] })] 3 (fun _ => 0) =
      .ok (RandomStrategy.mk "minimize" [("a", ParamSpec.category ["x", "y"])] 3
        [drawAssignment (fun _ => 0) [("a", ParamSpec.category ["x", "y"])] 0,
         drawAssignment (fun _ => 0) [("a", ParamSpec.category ["x", "y"])] 1,
         drawAssignment (fun _ => 0) [("a", ParamSpec.category ["x", "y"])] 2] 0) ∧
    ([drawAssignment (fun _ => 0) [("a", ParamSpec.category ["x", "y"])] 0,
      drawAssignment (fun _ => 0) [("a", ParamSpec.category ["x", "y"])] 1,
      drawAssignment (fun _ => 0) [("a", ParamSpec.category ["x", "y"])] 2] :
      List (List (String × HValue))).length = 3 ∧ (3 : ℕ) ≠ 0 := by
  refine ⟨by rfl, by rfl, by norm_num⟩

/-- C7 (amended): the `RandomStrategy` constructor stores the validated
parameter specs and the target count, and in addition precomputes the
full list of `num_samples` assignments at construction (each drawn from
the random stream at fresh indices); the cursor starts at 0. -/
theorem C7_random_strategy_precomputes (goal : String)
    (params : List (String × RawParamSpec)) (n : ℕ) (rng : ℕ → ℚ) (r : RandomStrategy)
    (h : RandomStrategy.create goal params n rng = .ok r) :
    parseAll params = .ok r.parameters ∧ r.num_samples = n ∧ r.sampled_so_far = 0 ∧
      r.samples.length = n ∧
      ∀ i, i < n → r.samples[i]? =
        some (drawAssignment rng r.parameters (i * r.parameters.length)) := by
  obtain ⟨hp, hn, hsamp, h0, _⟩ := randomStrategy_create_ok h
  refine ⟨hp, hn, h0, ?_, ?_⟩
  · rw [hsamp]
    simp
  · intro i hi
    rw [hsamp, List.getElem?_map, List.getElem?_range hi, Option.map_some']

/-- Witness for `C7_random_strategy_precomputes` at the counterexample's
concrete input. -/
theorem C7_random_strategy_precomputes_witness :
    parseAll [("a", { type := some "category", values := some ["x", "y"] })] =
      .ok (RandomStrategy.mk "minimize" [("a", ParamSpec.category ["x", "y"])] 3
        [drawAssignment (fun _ => 0) [("a", ParamSpec.category ["x", "y"])] 0,
         drawAssignment (fun _ => 0) [("a", ParamSpec.category ["x", "y"])] 1,
         drawAssignment (fun _ => 0) [("a", ParamSpec.category ["x", "y"])] 2] 0).parameters ∧
    (RandomStrategy.mk "minimize" [("a", ParamSpec.category ["x", "y"])] 3
        [drawAssignment (fun _ => 0) [("a", ParamSpec.category ["x", "y"])] 0,
         drawAssignment (fun _ => 0) [("a", ParamSpec.category ["x", "y"])] 1,
         drawAssignment (fun _ => 0) [("a", ParamSpec.category ["x", "y"])] 2] 0).num_samples = 3 ∧
    (RandomStrategy.mk "minimize" [("a", ParamSpec.category ["x", "y"])] 3
        [drawAssignment (fun _ => 0) [("a", ParamSpec.category ["x", "y"])] 0,
         drawAssignment (fun _ => 0) [("a", ParamSpec.category ["x", "y"])] 1,
         drawAssignment (fun _ => 0) [("a", ParamSpec.category ["x", "y"])] 2] 0).sampled_so_far
      = 0 ∧
    (RandomStrategy.mk "minimize" [("a", ParamSpec.category ["x", "y"])] 3
        [drawAssignment (fun _ => 0) [("a", ParamSpec.category ["x", "y"])] 0,
         drawAssignment (fun _ => 0) [("a", ParamSpec.category ["x", "y"])] 1,
         drawAssignment (fun _ => 0) [("a", ParamSpec.category ["x", "y"])] 2] 0).samples.length
      = 3 ∧
    ∀ i, i < 3 →
      (RandomStrategy.mk "minimize" [("a", ParamSpec.category ["x", "y"])] 3
        [drawAssignment (fun _ => 0) [("a", ParamSpec.category ["x", "y"])] 0,
         drawAssignment (fun _ => 0) [("a", ParamSpec.category ["x", "y"])] 1,
         drawAssignment (fun _ => 0) [("a", ParamSpec.category ["x", "y"])] 2] 0).samples[i]? =
        some (drawAssignment (fun _ => 0)
          (RandomStrategy.mk "minimize" [("a", ParamSpec.category ["x", "y"])] 3
            [drawAssignment (fun _ => 0) [("a", ParamSpec.category ["x", "y"])] 0,
             drawAssignment (fun _ => 0) [("a", ParamSpec.category ["x", "y"])] 1,
             drawAssignment (fun _ => 0) [("a", ParamSpec.category ["x", "y"])] 2] 0).parameters
          (i * (RandomStrategy.mk "minimize" [("a", ParamSpec.category ["x", "y"])] 3
            [drawAssignment (fun _ => 0) [("a", ParamSpec.category ["x", "y"])] 0,
             drawAssignment (fun _ => 0) [("a", ParamSpec.category ["x", "y"])] 1,
             drawAssignment (fun _ => 0) [("a", ParamSpec.category ["x", "y"])] 2]
            0).parameters.length)) :=
  C7_random_strategy_precomputes "minimize"
    [("a", { type := some "category", values := some ["x", "y"] })] 3 (fun _ => 0) _ (by rfl)

/-- C8: every malformed ParameterSpec in the input map (missing required
field, unrecognized type, inverted bounds, non-positive log-scale lower
bound, empty category list) makes both strategy constructors fail eagerly
with an `InvalidParameterSpecError`, and `sample()` — for any strategy
state of either kind — can only ever fail with `ExhaustedError`. -/
theorem C8_eager_validation (goal : String) (params : List (String × RawParamSpec)) :
    (∀ name r, (name, r) ∈ params → Malformed r →
      (∃ msg, GridStrategy.create goal params = .error (.invalidParameterSpec msg)) ∧
      (∀ n rng, ∃ msg, RandomStrategy.create goal params n rng =
        .error (.invalidParameterSpec msg))) ∧
    (∀ g e, GridStrategy.sample g = .error e → e = .exhausted) ∧
    (∀ r e, RandomStrategy.sample r = .error e → e = .exhausted) := by
  refine ⟨?_, ?_, ?_⟩
  · intro name r hmem hmal
    obtain ⟨msg, hmsg⟩ := malformed_parseAll_error hmem hmal
    constructor
    · refine ⟨msg, ?_⟩
      unfold GridStrategy.create
      rw [hmsg]
    · intro n rng
      refine ⟨msg, ?_⟩
      unfold RandomStrategy.create
      rw [hmsg]
  · intro g e h
    unfold GridStrategy.sample at h
    split at h
    · simp at h
    · injection h with h
      exact h.symm
  · intro r e h
    unfold RandomStrategy.sample at h
    split at h
    · simp at h
    · injection h with h
      exact h.symm

/-- Witness for `C8_eager_validation`: an empty category list is rejected
by both constructors, and concrete exhausted `sample()` calls of both
kinds return `ExhaustedError`. -/
theorem C8_eager_validation_witness :
    (∃ msg, GridStrategy.create "m" [("a", { type := some "category", values := some [] })] =
      .error (.invalidParameterSpec msg)) ∧
    (∃ msg, RandomStrategy.create "m" [("a", { type := some "category", values := some [] })]
      5 (fun _ => 0) = .error (.invalidParameterSpec msg)) ∧
    (HError.exhausted = HError.exhausted) ∧ (HError.exhausted = HError.exhausted) := by
  have h := C8_eager_validation "m"
    [("a", ({ type := some "category", values := some [] } : RawParamSpec))]
  have hmal : Malformed ({ type := some "category", values := some [] } : RawParamSpec) := by
    unfold Malformed
    exact Or.inr (Or.inr (Or.inr (Or.inr (Or.inr (Or.inr ⟨rfl, rfl⟩)))))
  have hmem : ("a", ({ type := some "category", values := some [] } : RawParamSpec)) ∈
      [("a", ({ type := some "category", values := some [] } : RawParamSpec))] :=
    List.mem_singleton.mpr rfl
  exact ⟨(h.1 "a" _ hmem hmal).1, (h.1 "a" _ hmem hmal).2 5 (fun _ => 0),
    h.2.1 (GridStrategy.mk "m" [] [] 0) .exhausted (by rfl),
    h.2.2 (RandomStrategy.mk "m" [] 0 [] 0) .exhausted (by rfl)⟩

end Hyperopt

namespace Hyperopt

set_option maxRecDepth 20000 in
/-- C4: a float ParameterSpec with log scale yields exactly `steps` values
forming a geometric progression (evenly spaced in log-space) from low to
high inclusive; the fixture `low=0.0001, high=0.1, steps=4` yields exactly
`[0.0001, 0.001, 0.01, 0.1]`; and a log-scale spec with `low ≤ 0` is
rejected at parse time. -/
theorem C4_log_scale_grid :
    (∀ lo hi steps vs, 2 ≤ steps → 0 < lo →
      logGridFunction lo hi steps = some vs →
      vs.length = steps ∧ vs.head? = some lo ∧ vs.getLast? = some hi ∧
      ∃ r, 0 < r ∧ r ^ (steps - 1) = hi / lo ∧
        ∀ k, k + 1 < steps → vs[k + 1]? = (vs[k]?).map (fun v => v * r)) ∧
    buildSequence (ParamSpec.float (1/10000) (1/10) (some 4) Scale.log) =
      some [HValue.float (1/10000), HValue.float (1/1000),
        HValue.float (1/100), HValue.float (1/10)] ∧
    (∀ lo hi steps, lo ≤ 0 → ∃ msg,
      parseParamSpec
        { type := some "float", low := some lo, high := some hi, steps := steps, scale := some "log" } =
        .error msg) := by
  refine ⟨?_, ?_, ?_⟩
  · intro lo hi steps vs hs hlo hv
    unfold logGridFunction at hv
    rw [if_neg (by omega), if_neg (by omega)] at hv
    cases hr : qExactRoot (hi / lo) (steps - 1) with
    | none => rw [hr] at hv; cases hv
    | some r =>
      rw [hr, Option.map_some'] at hv
      have hvs : vs = (List.range steps).map (fun k => lo * r ^ k) := by
        cases hv; rfl
      subst hvs
      obtain ⟨hrpos, hrpow⟩ := qExactRoot_spec hr
      refine ⟨by simp, ?_, ?_, r, hrpos, hrpow, ?_⟩
      · rw [List.head?_eq_getElem?, List.getElem?_map, List.getElem?_range (by omega),
          Option.map_some']
        simp
      · rw [List.getLast?_eq_getElem?]
        simp only [List.length_map, List.length_range]
        rw [List.getElem?_map, List.getElem?_range (by omega), Option.map_some', hrpow]
        rw [mul_comm, div_mul_cancel₀ _ (ne_of_gt hlo)]
      · intro k hk
        rw [List.getElem?_map, List.getElem?_range (by omega), Option.map_some',
          List.getElem?_map, List.getElem?_range (by omega), Option.map_some']
        rw [Option.map_some']
        rw [pow_succ]
        ring_nf
  · have hroot : qExactRoot ((1/10 : ℚ) / (1/10000)) 3 = some 10 := by
      have h1 : ((1/10 : ℚ) / (1/10000)) = 1000 := by norm_num
      rw [h1]
      unfold qExactRoot
      rw [if_pos (by norm_num)]
      have hnum : (1000 : ℚ).num = 1000 := by norm_num
      have hden : (1000 : ℚ).den = 1 := by norm_num
      rw [hnum, hden]
      rw [show ((1000 : ℤ).toNat) = 1000 from rfl]
      rw [show natExactRoot 1000 3 = some 10 from by decide]
      rw [show natExactRoot 1 3 = some 1 from by decide]
      norm_num
    show (logGridFunction (1/10000) (1/10) ((some 4).getD 2)).map
        (fun l => l.map HValue.float) = _
    rw [show ((some 4 : Option ℕ)).getD 2 = 4 from rfl]
    unfold logGridFunction
    rw [if_neg (by norm_num), if_neg (by norm_num)]
    rw [show (4 - 1 : ℕ) = 3 from rfl, hroot]
    rw [Option.map_some', Option.map_some']
    rw [show List.range 4 = [0, 1, 2, 3] from rfl]
    simp only [List.map_cons, List.map_nil]
    norm_num
  · intro lo hi steps hle
    apply malformed_parse_error
    unfold Malformed
    exact Or.inr (Or.inr (Or.inr (Or.inr (Or.inr (Or.inl ⟨lo, rfl, rfl, rfl, hle⟩)))))

set_option maxRecDepth 20000 in
/-- Witness for `C4_log_scale_grid`: the progression part at
`low=0.01, high=1, steps=3` (ratio 10), and the rejection part at
`low=0`. -/
theorem C4_log_scale_grid_witness :
    (((List.range 3).map (fun k => (1/100 : ℚ) * 10 ^ k)).length = 3 ∧
      ((List.range 3).map (fun k => (1/100 : ℚ) * 10 ^ k)).head? = some (1/100) ∧
      ((List.range 3).map (fun k => (1/100 : ℚ) * 10 ^ k)).getLast? = some 1 ∧
      ∃ r, 0 < r ∧ r ^ (3 - 1) = (1 : ℚ) / (1/100) ∧
        ∀ k, k + 1 < 3 →
          ((List.range 3).map (fun k => (1/100 : ℚ) * 10 ^ k))[k + 1]? =
            (((List.range 3).map (fun k => (1/100 : ℚ) * 10 ^ k))[k]?).map
              (fun v => v * r)) ∧
    (∃ msg, parseParamSpec
      { type := some "float", low := some 0, high := some 1, steps := none, scale := some "log" } =
      .error msg) := by
  constructor
  · refine (C4_log_scale_grid).1 (1/100) 1 3 _ (by norm_num) (by norm_num) ?_
    unfold logGridFunction
    rw [if_neg (by norm_num), if_neg (by norm_num)]
    have h1 : ((1 : ℚ) / (1/100)) = 100 := by norm_num
    rw [show (3 - 1 : ℕ) = 2 from rfl, h1]
    unfold qExactRoot
    rw [if_pos (by norm_num)]
    have hnum : (100 : ℚ).num = 100 := by norm_num
    have hden : (100 : ℚ).den = 1 := by norm_num
    rw [hnum, hden]
    rw [show ((100 : ℤ).toNat) = 100 from rfl]
    rw [show natExactRoot 100 2 = some 10 from by decide]
    rw [show natExactRoot 1 2 = some 1 from by decide]
    norm_num
  · exact (C4_log_scale_grid).2.2 0 1 none (by norm_num)

end Hyperopt

namespace Hyperopt

/-- C5: a float ParameterSpec with linear scale yields `steps` evenly
spaced values from low to high inclusive (first = low, last = high,
constant difference `(high - low) / (steps - 1)`), computed by exact
rational arithmetic (the fixed deterministic rule of this model); the
fixture `low=0.001, high=0.1, steps=4` yields exactly
`[0.001, 0.034, 0.067, 0.1]`. -/
theorem C5_linear_scale_grid :
    (∀ lo hi steps vs, 2 ≤ steps →
      floatGridFunction lo hi (some steps) Scale.linear = some vs →
      vs.length = steps ∧ vs.head? = some lo ∧ vs.getLast? = some hi ∧
      ∀ k, k + 1 < steps →
        vs[k + 1]? = (vs[k]?).map (fun v => v + (hi - lo) / ((steps : ℚ) - 1))) ∧
    buildSequence (ParamSpec.float (1/1000) (1/10) (some 4) Scale.linear) =
      some [HValue.float (1/1000), HValue.float (34/1000),
        HValue.float (67/1000), HValue.float (1/10)] := by
  constructor
  · intro lo hi steps vs hs hv
    unfold floatGridFunction at hv
    rw [show ((some steps : Option ℕ)).getD 2 = steps from rfl] at hv
    have hvs : vs = linspace lo hi steps := by cases hv; rfl
    subst hvs
    have hs1 : 1 ≤ steps := by omega
    have hcast : ((steps : ℚ) - 1) ≠ 0 := by
      have h2 : (2 : ℚ) ≤ (steps : ℚ) := by exact_mod_cast hs
      intro hz
      rw [sub_eq_zero] at hz
      rw [hz] at h2
      norm_num at h2
    refine ⟨linspace_length lo hi steps, ?_, ?_, ?_⟩
    · rw [List.head?_eq_getElem?, linspace_getElem lo hi steps 0 hs (by omega)]
      norm_num
    · rw [List.getLast?_eq_getElem?, linspace_length,
        linspace_getElem lo hi steps (steps - 1) hs (by omega)]
      have hc : ((steps - 1 : ℕ) : ℚ) = (steps : ℚ) - 1 := by
        rw [Nat.cast_sub hs1]
        norm_num
      rw [hc]
      congr 1
      field_simp
    · intro k hk
      rw [linspace_getElem lo hi steps (k + 1) hs hk,
        linspace_getElem lo hi steps k hs (by omega), Option.map_some']
      congr 1
      push_cast
      ring
  · show (floatGridFunction (1/1000) (1/10) (some 4) Scale.linear).map
      (fun l => l.map HValue.float) = _
    unfold floatGridFunction
    rw [show ((some 4 : Option ℕ)).getD 2 = 4 from rfl]
    unfold linspace
    rw [if_neg (by norm_num), show List.range 4 = [0, 1, 2, 3] from rfl]
    simp only [List.map_cons, List.map_nil, Option.map_some']
    norm_num

/-- Witness for `C5_linear_scale_grid` at `low=0, high=1, steps=2`. -/
theorem C5_linear_scale_grid_witness :
    (linspace 0 1 2).length = 2 ∧ (linspace 0 1 2).head? = some 0 ∧
      (linspace 0 1 2).getLast? = some 1 ∧
      ∀ k, k + 1 < 2 →
        (linspace 0 1 2)[k + 1]? =
          ((linspace 0 1 2)[k]?).map (fun v => v + ((1 : ℚ) - 0) / ((2 : ℚ) - 1)) :=
  (C5_linear_scale_grid).1 0 1 2 (linspace 0 1 2) (by norm_num) (by rfl)

end Hyperopt

namespace TextFeature

/-- C9: for every input column and preprocessing parameters, the
`char_max_sequence_length` and `word_max_sequence_length` values returned
by `TextFeatureMixin.get_feature_meta` never exceed the configured
`char_sequence_length_limit` and `word_sequence_length_limit`; each is
exactly the minimum of the configured limit and the observed maximum
length reported by `create_vocabulary`. -/
theorem C9_sequence_length_clamped (column : List String) (pp : PreprocessingParameters)
    (wordTokenize : String → List String) :
    (get_feature_meta column pp wordTokenize).char_max_sequence_length ≤
      pp.char_sequence_length_limit ∧
    (get_feature_meta column pp wordTokenize).word_max_sequence_length ≤
      pp.word_sequence_length_limit ∧
    (get_feature_meta column pp wordTokenize).char_max_sequence_length =
      min pp.char_sequence_length_limit (create_vocabulary column charTokenize).max_len ∧
    (get_feature_meta column pp wordTokenize).word_max_sequence_length =
      min pp.word_sequence_length_limit (create_vocabulary column wordTokenize).max_len :=
  ⟨min_le_left _ _, min_le_left _ _, rfl, rfl⟩

/-- C10: whenever the level's `idx2str` vocabulary is present,
`TextOutputFeature.postprocess_predictions` maps every predicted token
index totally: an index below the vocabulary size selects the
corresponding vocabulary entry, any index at or beyond it yields
`UNKNOWN_SYMBOL`, so no lookup is out of bounds and both the
`PREDICTIONS` and `LAST_PREDICTIONS` outputs contain only vocabulary
strings or the unknown symbol. -/
theorem C10_postprocess_total_mapping (idx2str : List String) (preds : List (List ℕ))
    (last_preds : List ℕ) :
    (∀ row ∈ postprocess_prediction_tokens idx2str preds,
      ∀ s ∈ row, s ∈ idx2str ∨ s = UNKNOWN_SYMBOL) ∧
    (∀ s ∈ postprocess_last_predictions idx2str last_preds,
      s ∈ idx2str ∨ s = UNKNOWN_SYMBOL) ∧
    (∀ token, ∀ h : token < idx2str.length,
      map_token idx2str token = idx2str.get ⟨token, h⟩) ∧
    (∀ token, idx2str.length ≤ token → map_token idx2str token = UNKNOWN_SYMBOL) := by
  have hcases : ∀ token, map_token idx2str token ∈ idx2str ∨
      map_token idx2str token = UNKNOWN_SYMBOL := by
    intro token
    unfold map_token
    split
    · exact Or.inl (List.get_mem _ _ _)
    · exact Or.inr rfl
  refine ⟨?_, ?_, ?_, ?_⟩
  · intro row hrow s hs
    obtain ⟨pred, hpred, rfl⟩ := List.mem_map.mp hrow
    obtain ⟨token, htoken, rfl⟩ := List.mem_map.mp hs
    exact hcases token
  · intro s hs
    obtain ⟨token, htoken, rfl⟩ := List.mem_map.mp hs
    exact hcases token
  · intro token h
    unfold map_token
    rw [dif_pos h]
  · intro token h
    unfold map_token
    rw [dif_neg (not_lt.mpr h)]

/-- Witness for `C10_postprocess_total_mapping` on the vocabulary
`["a", "b"]` with an in-range and an out-of-range token. -/
theorem C10_postprocess_total_mapping_witness :
    (∀ row ∈ postprocess_prediction_tokens ["a", "b"] [[0, 5]],
      ∀ s ∈ row, s ∈ ["a", "b"] ∨ s = UNKNOWN_SYMBOL) ∧
    (map_token ["a", "b"] 1 = (["a", "b"] : List String).get ⟨1, by norm_num⟩) ∧
    (map_token ["a", "b"] 5 = UNKNOWN_SYMBOL) := by
  have h := C10_postprocess_total_mapping ["a", "b"] [[0, 5]] [1]
  exact ⟨h.1, h.2.2.1 1 (by norm_num), h.2.2.2 5 (by norm_num)⟩

end TextFeature
